import Mathlib

/-!
Shallow embedding of the utapi-go client library (src/main.go) and proofs of
the specification claims about it.

Modelling conventions:
* Go errors are represented as strings (`GoError`); `fmt.Errorf` becomes
  string concatenation.
* The HTTP transport (`http.NewRequest` followed by `httpClient.Do`) is an
  environment function from the built request to a transport result: either a
  transport-level failure (covering both request-construction and Do errors)
  or a response carrying a status code and a body.
* A response body is its raw bytes (`raw`, as read by `io.ReadAll`) together
  with its parse result per `encoding/json` (`json`; `none` means the bytes
  are not valid JSON, so any decode fails).
* `json.Marshal` of the request structures is total (those structures consist
  of strings, integers and slices, for which Go marshalling cannot fail); it
  is modelled by explicit encoders to a JSON AST rendered to a string.
  Go additionally escapes control and HTML characters; that detail is elided.
* Each embedded API method also returns the list of HTTP requests it issued,
  so that claims about what is sent on the wire can be stated.
-/

/-- Go error values, represented by their message string. -/
abbrev GoError := String

/-- JSON values as handled by encoding/json (numbers restricted to integers,
which is all this client produces or consumes). -/
inductive Json where
  | null : Json
  | bool : Bool → Json
  | num : Int → Json
  | str : String → Json
  | arr : List Json → Json
  | obj : List (String × Json) → Json
deriving Repr

/-- Escape of a single character inside a JSON string literal. -/
def escapeChar (c : Char) : String :=
  if c = '"' then "\\\""
  else if c = '\\' then "\\\\"
  else if c = '\n' then "\\n"
  else if c = '\t' then "\\t"
  else if c = '\r' then "\\r"
  else String.singleton c

/-- Escape of a JSON string body. -/
def escapeJson (s : String) : String :=
  String.join (s.toList.map escapeChar)

mutual

/-- Rendering of a JSON value to its serialized byte string, as json.Marshal
produces (struct fields in declaration order). -/
def Json.render : Json → String
  | Json.null => "null"
  | Json.bool true => "true"
  | Json.bool false => "false"
  | Json.num n => toString n
  | Json.str s => "\"" ++ escapeJson s ++ "\""
  | Json.arr xs => "[" ++ renderArr xs ++ "]"
  | Json.obj fs => "\x7b" ++ renderObj fs ++ "\x7d"

/-- Rendering of the comma-separated elements of a JSON array. -/
def renderArr : List Json → String
  | [] => ""
  | [x] => Json.render x
  | x :: y :: xs => Json.render x ++ "," ++ renderArr (y :: xs)

/-- Rendering of the comma-separated members of a JSON object. -/
def renderObj : List (String × Json) → String
  | [] => ""
  | [(k, v)] => "\"" ++ escapeJson k ++ "\":" ++ Json.render v
  | (k, v) :: p :: fs =>
      "\"" ++ escapeJson k ++ "\":" ++ Json.render v ++ "," ++ renderObj (p :: fs)

end

/-- Response body as the client sees it: the raw bytes together with their
parse result per encoding/json (`none` when the bytes are not valid JSON). -/
structure RespBody where
  raw : String
  json : Option Json

/-- Multipart form bodies built by createMultipartForm: ordinary fields in the
order they were written, then file parts. -/
inductive FormPart where
  | field : String → String → FormPart
  | file : String → String → List UInt8 → FormPart
deriving Repr, DecidableEq

/-- Multipart form body. -/
structure MultipartForm where
  parts : List FormPart
deriving Repr, DecidableEq

/-- Body of an outgoing HTTP request: a byte string (the JSON payloads and the
literal "\x7b\x7d" bodies) or a multipart form. -/
inductive ReqBody where
  | bytes : String → ReqBody
  | multipart : MultipartForm → ReqBody
deriving Repr, DecidableEq

/-- An HTTP request as built by http.NewRequest plus header assignments. -/
structure HttpRequest where
  method : String
  url : String
  headers : List (String × String)
  body : ReqBody

/-- Result of handing a request to the transport: either a failure of
http.NewRequest or of httpClient.Do, or a response with status and body. -/
inductive TransportResult where
  | fail : GoError → TransportResult
  | resp : Int → RespBody → TransportResult

/-- The HTTP transport: what the network does with each request. -/
abbrev HttpEnv := HttpRequest → TransportResult

/-- Config for UploadThing (struct uploadthingConfig in src/main.go). -/
structure uploadthingConfig where
  Host : String
  ApiKey : String
  Version : String

/-- Client structure (struct UtApi). The Go field httpClient (an
*http.Client) is embedded as the transport environment the client calls. -/
structure UtApi where
  config : uploadthingConfig
  httpClient : HttpEnv
  fePackage : String
  beAdapter : String

/-- Header lookup (the value req.Header.Set left for a key). -/
def headerGet (hs : List (String × String)) (k : String) : Option String :=
  match hs with
  | [] => none
  | (k2, v) :: rest => if k2 = k then some v else headerGet rest k

/-- setHeaders: the headers set on every request of the client (src/main.go
lines 90-100), as the list of key/value pairs in the order they are set. -/
def setHeaders (ut : UtApi) : List (String × String) :=
  [("Content-Type", "application/json"),
   ("x-uploadthing-api-key", ut.config.ApiKey),
   ("x-uploadthing-version", ut.config.Version)]
  ++ (if ut.fePackage = "" then [] else [("x-uploadthing-fe-package", ut.fePackage)])
  ++ (if ut.beAdapter = "" then [] else [("x-uploadthing-be-adapter", ut.beAdapter)])

/-- The request the universal POST helper builds for a path and JSON body. -/
def mkRequest (ut : UtApi) (path : String) (body : String) : HttpRequest :=
  { method := "POST"
    url := ut.config.Host ++ path
    headers := setHeaders ut
    body := ReqBody.bytes body }

/-- The error message built for a non-2xx status (fmt.Errorf at line 116). -/
def statusErrMsg (st : Int) (b : RespBody) : GoError :=
  "UploadThing: error " ++ toString st ++ ": " ++ b.raw

/-- post: the universal POST request helper (src/main.go lines 103-119).
Returns the Go pair (*http.Response, error) — of which the source makes
exactly one non-nil on every return path, hence an Except — plus the list of
requests handed to the transport. -/
def post (ut : UtApi) (path : String) (body : String) :
    Except GoError (Int × RespBody) × List HttpRequest :=
  let req := mkRequest ut path body
  match ut.httpClient req with
  | TransportResult.fail e => (Except.error e, [req])
  | TransportResult.resp st b =>
      if st < 200 ∨ 300 ≤ st then (Except.error (statusErrMsg st b), [req])
      else (Except.ok (st, b), [req])

/-! ## JSON decoding per encoding/json

Decoding a response body into a Go struct: the body must be valid JSON and
its top level an object (or null, which leaves the struct at its zero value);
unknown object members are ignored, missing or null members leave the zero
value, and a member of the wrong type is an unmarshal error. -/

/-- Lookup of an object member. -/
def jsonField (fs : List (String × Json)) (k : String) : Option Json :=
  match fs with
  | [] => none
  | (k2, v) :: rest => if k2 = k then some v else jsonField rest k

/-- The unmarshal type-mismatch error for a member. -/
def unmarshalErr (k : String) : GoError :=
  "json: cannot unmarshal " ++ k

/-- Decoding of a bool struct field. -/
def decBoolField (fs : List (String × Json)) (k : String) : Except GoError Bool :=
  match jsonField fs k with
  | none => Except.ok false
  | some Json.null => Except.ok false
  | some (Json.bool b) => Except.ok b
  | some _ => Except.error (unmarshalErr k)

/-- Decoding of an int / int64 struct field. -/
def decIntField (fs : List (String × Json)) (k : String) : Except GoError Int :=
  match jsonField fs k with
  | none => Except.ok 0
  | some Json.null => Except.ok 0
  | some (Json.num n) => Except.ok n
  | some _ => Except.error (unmarshalErr k)

/-- Decoding of a string struct field. -/
def decStrField (fs : List (String × Json)) (k : String) : Except GoError String :=
  match jsonField fs k with
  | none => Except.ok ""
  | some Json.null => Except.ok ""
  | some (Json.str s) => Except.ok s
  | some _ => Except.error (unmarshalErr k)

/-- Decoding of a *string struct field (nil pointer for missing or null). -/
def decOptStrField (fs : List (String × Json)) (k : String) :
    Except GoError (Option String) :=
  match jsonField fs k with
  | none => Except.ok none
  | some Json.null => Except.ok none
  | some (Json.str s) => Except.ok (some s)
  | some _ => Except.error (unmarshalErr k)

/-- Decoding of every element of a JSON array. -/
def decodeList (dec : Json → Except GoError α) : List Json → Except GoError (List α)
  | [] => Except.ok []
  | x :: xs => do
      let v ← dec x
      let vs ← decodeList dec xs
      Except.ok (v :: vs)

/-- Decoding of a slice struct field (nil slice for missing or null). -/
def decListField (fs : List (String × Json)) (k : String)
    (dec : Json → Except GoError α) : Except GoError (List α) :=
  match jsonField fs k with
  | none => Except.ok []
  | some Json.null => Except.ok []
  | some (Json.arr xs) => decodeList dec xs
  | some _ => Except.error (unmarshalErr k)

/-- Decoding of the members of an object into string pairs (for a
map[string]string field). -/
def decStrPairs : List (String × Json) → Except GoError (List (String × String))
  | [] => Except.ok []
  | (k, Json.str v) :: rest => do
      let vs ← decStrPairs rest
      Except.ok ((k, v) :: vs)
  | (k, Json.null) :: rest => do
      let vs ← decStrPairs rest
      Except.ok ((k, "") :: vs)
  | (k, _) :: _ => Except.error (unmarshalErr k)

/-- Decoding of a map[string]string struct field. -/
def decMapField (fs : List (String × Json)) (k : String) :
    Except GoError (List (String × String)) :=
  match jsonField fs k with
  | none => Except.ok []
  | some Json.null => Except.ok []
  | some (Json.obj ms) => decStrPairs ms
  | some _ => Except.error (unmarshalErr k)

/-- Decoding of a response body into a struct: not valid JSON is a decode
error, a null document leaves the zero value, a non-object document is an
unmarshal error, and an object is decoded member-wise by `f`. -/
def decodeTop (b : RespBody) (zero : α)
    (f : List (String × Json) → Except GoError α) : Except GoError α :=
  match b.json with
  | none => Except.error "invalid character in JSON input"
  | some Json.null => Except.ok zero
  | some (Json.obj fs) => f fs
  | some _ => Except.error (unmarshalErr "response")

/-! ## Endpoint request / response structures (src/main.go lines 125-350) -/

/-- DeleteFilesRequest. -/
structure DeleteFilesRequest where
  FileKeys : List String

/-- DeleteFilesResponse. -/
structure DeleteFilesResponse where
  Success : Bool
  DeletedCount : Int
deriving Repr, DecidableEq

/-- Marshalling of DeleteFilesRequest. -/
def encodeDeleteFilesRequest (r : DeleteFilesRequest) : Json :=
  Json.obj [("fileKeys", Json.arr (r.FileKeys.map Json.str))]

/-- Unmarshalling of DeleteFilesResponse. -/
def decodeDeleteFilesResponse (b : RespBody) : Except GoError DeleteFilesResponse :=
  decodeTop b { Success := false, DeletedCount := 0 } (fun fs => do
    let s ← decBoolField fs "success"
    let c ← decIntField fs "deletedCount"
    Except.ok { Success := s, DeletedCount := c })

/-- ListFilesRequest. -/
structure ListFilesRequest where
  Limit : Int
  Offset : Int

/-- ListFilesFile. -/
structure ListFilesFile where
  Id : String
  CustomId : Option String
  Key : String
  Name : String
  Status : String
  Size : Int
  UploadedAt : Int
deriving Repr, DecidableEq

/-- ListFilesResponse. -/
structure ListFilesResponse where
  HasMore : Bool
  Files : List ListFilesFile
deriving Repr, DecidableEq

/-- Marshalling of ListFilesRequest. -/
def encodeListFilesRequest (r : ListFilesRequest) : Json :=
  Json.obj [("limit", Json.num r.Limit), ("offset", Json.num r.Offset)]

/-- Unmarshalling of one files array element. -/
def decodeListFilesFile (j : Json) : Except GoError ListFilesFile :=
  match j with
  | Json.null => Except.ok
      { Id := "", CustomId := none, Key := "", Name := "", Status := ""
        Size := 0, UploadedAt := 0 }
  | Json.obj fs => do
      let i ← decStrField fs "id"
      let cid ← decOptStrField fs "customId"
      let k ← decStrField fs "key"
      let n ← decStrField fs "name"
      let st ← decStrField fs "status"
      let sz ← decIntField fs "size"
      let up ← decIntField fs "uploadedAt"
      Except.ok { Id := i, CustomId := cid, Key := k, Name := n, Status := st
                  Size := sz, UploadedAt := up }
  | _ => Except.error (unmarshalErr "files")

/-- Unmarshalling of ListFilesResponse. -/
def decodeListFilesResponse (b : RespBody) : Except GoError ListFilesResponse :=
  decodeTop b { HasMore := false, Files := [] } (fun fs => do
    let hm ← decBoolField fs "hasMore"
    let files ← decListField fs "files" decodeListFilesFile
    Except.ok { HasMore := hm, Files := files })

/-- RenameFileUpdate. -/
structure RenameFileUpdate where
  FileKey : String
  NewName : String

/-- RenameFilesRequest. -/
structure RenameFilesRequest where
  Updates : List RenameFileUpdate

/-- RenameFilesResponse. -/
structure RenameFilesResponse where
  Success : Bool
  RenamedCount : Int
deriving Repr, DecidableEq

/-- Marshalling of one rename update. -/
def encodeRenameFileUpdate (u : RenameFileUpdate) : Json :=
  Json.obj [("fileKey", Json.str u.FileKey), ("newName", Json.str u.NewName)]

/-- Marshalling of RenameFilesRequest. -/
def encodeRenameFilesRequest (r : RenameFilesRequest) : Json :=
  Json.obj [("updates", Json.arr (r.Updates.map encodeRenameFileUpdate))]

/-- Unmarshalling of RenameFilesResponse. -/
def decodeRenameFilesResponse (b : RespBody) : Except GoError RenameFilesResponse :=
  decodeTop b { Success := false, RenamedCount := 0 } (fun fs => do
    let s ← decBoolField fs "success"
    let c ← decIntField fs "renamedCount"
    Except.ok { Success := s, RenamedCount := c })

/-- UsageInfoResponse. -/
structure UsageInfoResponse where
  TotalBytes : Int
  AppTotalBytes : Int
  FilesUploaded : Int
  LimitBytes : Int
deriving Repr, DecidableEq

/-- Unmarshalling of UsageInfoResponse. -/
def decodeUsageInfoResponse (b : RespBody) : Except GoError UsageInfoResponse :=
  decodeTop b { TotalBytes := 0, AppTotalBytes := 0, FilesUploaded := 0, LimitBytes := 0 }
    (fun fs => do
      let t ← decIntField fs "totalBytes"
      let a ← decIntField fs "appTotalBytes"
      let f ← decIntField fs "filesUploaded"
      let l ← decIntField fs "limitBytes"
      Except.ok { TotalBytes := t, AppTotalBytes := a, FilesUploaded := f, LimitBytes := l })

/-- RequestFileAccessRequest (ExpiresIn carries omitempty). -/
structure RequestFileAccessRequest where
  FileKey : String
  ExpiresIn : Int

/-- RequestFileAccessResponse (Url is deprecated upstream). -/
structure RequestFileAccessResponse where
  UfsUrl : String
  Url : String
deriving Repr, DecidableEq

/-- Marshalling of RequestFileAccessRequest: expiresIn is omitted at its zero
value per the omitempty tag. -/
def encodeRequestFileAccessRequest (r : RequestFileAccessRequest) : Json :=
  Json.obj ([("fileKey", Json.str r.FileKey)] ++
    (if r.ExpiresIn = 0 then [] else [("expiresIn", Json.num r.ExpiresIn)]))

/-- Unmarshalling of RequestFileAccessResponse. -/
def decodeRequestFileAccessResponse (b : RespBody) :
    Except GoError RequestFileAccessResponse :=
  decodeTop b { UfsUrl := "", Url := "" } (fun fs => do
    let u ← decStrField fs "ufsUrl"
    let d ← decStrField fs "url"
    Except.ok { UfsUrl := u, Url := d })

/-- GetAppInfoResponse. -/
structure GetAppInfoResponse where
  AppId : String
  DefaultACL : String
  AllowACLOverride : Bool
deriving Repr, DecidableEq

/-- Unmarshalling of GetAppInfoResponse. -/
def decodeGetAppInfoResponse (b : RespBody) : Except GoError GetAppInfoResponse :=
  decodeTop b { AppId := "", DefaultACL := "", AllowACLOverride := false } (fun fs => do
    let i ← decStrField fs "appId"
    let d ← decStrField fs "defaultACL"
    let o ← decBoolField fs "allowACLOverride"
    Except.ok { AppId := i, DefaultACL := d, AllowACLOverride := o })

/-- UploadFileInfo (CustomId carries omitempty). The Go field Type is named
Type_ here because Type is reserved in Lean. -/
structure UploadFileInfo where
  Name : String
  Size : Int
  Type_ : String
  CustomId : Option String

/-- UploadFilesRequest. Metadata is a Go interface value (an arbitrary JSON
document or nil) and carries omitempty, as does ContentDisposition. -/
structure UploadFilesRequest where
  Files : List UploadFileInfo
  ACL : String
  Metadata : Option Json
  ContentDisposition : String

/-- PresignedPostURLs. The Fields map is kept as its iteration sequence. -/
structure PresignedPostURLs where
  Key : String
  FileName : String
  FileType : String
  FileUrl : String
  ContentDisposition : String
  PollingJwt : String
  PollingUrl : String
  CustomId : Option String
  Url : String
  Fields : List (String × String)
deriving Repr, DecidableEq

/-- UploadFilesResponse. -/
structure UploadFilesResponse where
  Data : List PresignedPostURLs
deriving Repr, DecidableEq

/-- Marshalling of one UploadFileInfo. -/
def encodeUploadFileInfo (f : UploadFileInfo) : Json :=
  Json.obj ([("name", Json.str f.Name), ("size", Json.num f.Size),
    ("type", Json.str f.Type_)] ++
    (match f.CustomId with
     | none => []
     | some c => [("customId", Json.str c)]))

/-- Marshalling of UploadFilesRequest: metadata and contentDisposition are
omitted at their zero values per their omitempty tags. -/
def encodeUploadFilesRequest (r : UploadFilesRequest) : Json :=
  Json.obj ([("files", Json.arr (r.Files.map encodeUploadFileInfo)),
    ("acl", Json.str r.ACL)] ++
    (match r.Metadata with
     | none => []
     | some m => [("metadata", m)]) ++
    (if r.ContentDisposition = "" then []
     else [("contentDisposition", Json.str r.ContentDisposition)]))

/-- Unmarshalling of one data array element. -/
def decodePresignedPostURLs (j : Json) : Except GoError PresignedPostURLs :=
  match j with
  | Json.null => Except.ok
      { Key := "", FileName := "", FileType := "", FileUrl := ""
        ContentDisposition := "", PollingJwt := "", PollingUrl := ""
        CustomId := none, Url := "", Fields := [] }
  | Json.obj fs => do
      let k ← decStrField fs "key"
      let fn ← decStrField fs "fileName"
      let ft ← decStrField fs "fileType"
      let fu ← decStrField fs "fileUrl"
      let cd ← decStrField fs "contentDisposition"
      let pj ← decStrField fs "pollingJwt"
      let pu ← decStrField fs "pollingUrl"
      let cid ← decOptStrField fs "customId"
      let u ← decStrField fs "url"
      let flds ← decMapField fs "fields"
      Except.ok { Key := k, FileName := fn, FileType := ft, FileUrl := fu
                  ContentDisposition := cd, PollingJwt := pj, PollingUrl := pu
                  CustomId := cid, Url := u, Fields := flds }
  | _ => Except.error (unmarshalErr "data")

/-- Unmarshalling of UploadFilesResponse. -/
def decodeUploadFilesResponse (b : RespBody) : Except GoError UploadFilesResponse :=
  decodeTop b { Data := [] } (fun fs => do
    let d ← decListField fs "data" decodePresignedPostURLs
    Except.ok { Data := d })

/-! ## API methods (src/main.go lines 136-350)

Every API method repeats the same lines after its `post` call: return the
error if post failed, otherwise decode the response body (closing it via
defer, a resource detail with no observable effect here) and return either
the decode error or the decoded structure. `finishCall` is that shared
continuation; each method is its marshalled payload, its path and its
decoder. The Go return pair (*T, error) is embedded as the pair of options
the source returns. -/

/-- Shared continuation of every API method after post: error passthrough,
then decode of the 2xx response body. -/
def finishCall (p : Except GoError (Int × RespBody) × List HttpRequest)
    (dec : RespBody → Except GoError α) :
    Option α × Option GoError × List HttpRequest :=
  match p with
  | (Except.error e, tr) => (none, some e, tr)
  | (Except.ok r, tr) =>
      match dec r.2 with
      | Except.error e => (none, some e, tr)
      | Except.ok result => (some result, none, tr)

/-- DeleteFiles (src/main.go lines 136-152). -/
def DeleteFiles (ut : UtApi) (fileKeys : List String) :
    Option DeleteFilesResponse × Option GoError × List HttpRequest :=
  let payload : DeleteFilesRequest := { FileKeys := fileKeys }
  let data := Json.render (encodeDeleteFilesRequest payload)
  finishCall (post ut "/v6/deleteFiles" data) decodeDeleteFilesResponse

/-- ListFiles (src/main.go lines 175-191). -/
def ListFiles (ut : UtApi) (limit offset : Int) :
    Option ListFilesResponse × Option GoError × List HttpRequest :=
  let payload : ListFilesRequest := { Limit := limit, Offset := offset }
  let data := Json.render (encodeListFilesRequest payload)
  finishCall (post ut "/v6/listFiles" data) decodeListFilesResponse

/-- RenameFiles (src/main.go lines 208-224). -/
def RenameFiles (ut : UtApi) (updates : List RenameFileUpdate) :
    Option RenameFilesResponse × Option GoError × List HttpRequest :=
  let payload : RenameFilesRequest := { Updates := updates }
  let data := Json.render (encodeRenameFilesRequest payload)
  finishCall (post ut "/v6/renameFiles" data) decodeRenameFilesResponse

/-- GetUsageInfo (src/main.go lines 235-246); the body is the literal
byte string of an empty JSON object. -/
def GetUsageInfo (ut : UtApi) :
    Option UsageInfoResponse × Option GoError × List HttpRequest :=
  finishCall (post ut "/v6/getUsageInfo" "\x7b\x7d") decodeUsageInfoResponse

/-- GetPresignedUrl (src/main.go lines 260-276): returns the ufsUrl field of
the decoded response, or the empty string with the error. -/
def GetPresignedUrl (ut : UtApi) (fileKey : String) (expiresIn : Int) :
    String × Option GoError × List HttpRequest :=
  let payload : RequestFileAccessRequest := { FileKey := fileKey, ExpiresIn := expiresIn }
  let data := Json.render (encodeRequestFileAccessRequest payload)
  match finishCall (post ut "/v6/requestFileAccess" data) decodeRequestFileAccessResponse with
  | (none, e, tr) => ("", e, tr)
  | (some result, _, tr) => (result.UfsUrl, none, tr)

/-- GetAppInfo (src/main.go lines 286-297); the body is the literal byte
string of an empty JSON object. -/
def GetAppInfo (ut : UtApi) :
    Option GetAppInfoResponse × Option GoError × List HttpRequest :=
  finishCall (post ut "/v7/getAppInfo" "\x7b\x7d") decodeGetAppInfoResponse

/-- GetPresignedUploadUrl (src/main.go lines 331-350): only Files and ACL of
the payload are populated. -/
def GetPresignedUploadUrl (ut : UtApi) (files : List UploadFileInfo) (acl : String) :
    Option UploadFilesResponse × Option GoError × List HttpRequest :=
  let payload : UploadFilesRequest :=
    { Files := files, ACL := acl, Metadata := none, ContentDisposition := "" }
  let data := Json.render (encodeUploadFilesRequest payload)
  finishCall (post ut "/v6/uploadFiles" data) decodeUploadFilesResponse

/-! ## Constructor chain (src/main.go lines 37-87) -/

/-- The process environment as the constructor sees it: the outcome of
godotenv.Load ".env" and the values os.Getenv returns afterwards. -/
structure OsEnv where
  dotenvLoad : Except GoError Unit
  getenv : String → String

/-- setEnvironmentVariablesFromFile: godotenv.Load ".env". -/
def setEnvironmentVariablesFromFile (env : OsEnv) : Except GoError Unit :=
  env.dotenvLoad

/-- handleSetEnvironmentVariables: passes the load error through (the
fmt.Printf on failure is output only and has no modelled effect). -/
def handleSetEnvironmentVariables (env : OsEnv) : Except GoError Unit :=
  match setEnvironmentVariablesFromFile env with
  | Except.error e => Except.error e
  | Except.ok _ => Except.ok ()

/-- validateEnvironmentVariables: the first unset key yields an error. -/
def validateEnvironmentVariables (env : OsEnv) (keys : List String) :
    Except GoError Unit :=
  match keys with
  | [] => Except.ok ()
  | key :: rest =>
      if env.getenv key = "" then Except.error (key ++ " is not set")
      else validateEnvironmentVariables env rest

/-- getUploadthingConfig (src/main.go lines 59-73). -/
def getUploadthingConfig (env : OsEnv) :
    Option uploadthingConfig × Option GoError :=
  match handleSetEnvironmentVariables env with
  | Except.error e => (none, some e)
  | Except.ok _ =>
      match validateEnvironmentVariables env ["UPLOADTHING_SECRET"] with
      | Except.error e => (none, some e)
      | Except.ok _ =>
          (some { Host := "https://api.uploadthing.com"
                  ApiKey := env.getenv "UPLOADTHING_SECRET"
                  Version := "7.6.0" }, none)

/-- NewUtApi (src/main.go lines 76-87). The fresh default &http.Client is
represented by the transport environment `net`. -/
def NewUtApi (env : OsEnv) (net : HttpEnv) : Option UtApi × Option GoError :=
  match getUploadthingConfig env with
  | (_, some e) => (none, some e)
  | (some config, none) =>
      (some { config := config
              httpClient := net
              fePackage := ""
              beAdapter := "github.com/IXackerr/utapi-go" }, none)
  | (none, none) => (none, none)

/-! ## Multipart upload (src/main.go lines 352-437) -/

/-- The error io.CopyN returns when the reader is exhausted early. -/
def eofErr : GoError := "EOF"

/-- The multipart content type (multipart.Writer.FormDataContentType; the
random boundary parameter is elided). -/
def formDataContentType : String := "multipart/form-data"

/-- createMultipartForm (src/main.go lines 353-370): write every field of the
map (in its iteration sequence), create the form file part named "file", and
copy exactly size bytes from the reader into it when the reader is non-nil
and size is positive; copying fails when the reader yields fewer than size
bytes. Writing fields and creating the part cannot fail against the
in-memory buffer, matching the source ignoring or propagating those errors. -/
def createMultipartForm (content : Option (List UInt8)) (size : Int)
    (fileName : String) (fields : List (String × String)) :
    Except GoError (MultipartForm × String) :=
  let copied : Except GoError (List UInt8) :=
    match content with
    | none => Except.ok []
    | some bs =>
        if 0 < size then
          if (bs.length : Int) < size then Except.error eofErr
          else Except.ok (bs.take size.toNat)
        else Except.ok []
  match copied with
  | Except.error e => Except.error e
  | Except.ok dat =>
      Except.ok
        ({ parts := fields.map (fun p => FormPart.field p.1 p.2) ++
            [FormPart.file "file" fileName dat] },
         formDataContentType)

/-- Events on local file handles during a call. -/
inductive FileEvent where
  | opened : String → FileEvent
  | closed : String → FileEvent
deriving Repr, DecidableEq

/-- The local filesystem as UploadFileToPresignedUrl sees it: whether os.Open
succeeds for a path, what fileInfo.Size() reports, and the bytes the opened
handle yields to a reader. -/
structure FsEnv where
  openFile : String → Except GoError Unit
  statSize : String → Except GoError Int
  contents : String → List UInt8

/-- The error message built for a non-2xx upload status (fmt.Errorf at lines
406 and 434). -/
def uploadErrMsg (st : Int) (b : RespBody) : GoError :=
  "File upload error: " ++ toString st ++ ": " ++ b.raw

/-- Shared tail of both upload functions: build the POST to presigned.Url
with the form body and the multipart content type, hand it to the transport,
and check the status range. Returns the error and the requests issued. -/
def sendPresignedPost (net : HttpEnv) (presigned : PresignedPostURLs)
    (form : MultipartForm) (contentType : String) :
    Option GoError × List HttpRequest :=
  let req : HttpRequest :=
    { method := "POST"
      url := presigned.Url
      headers := [("Content-Type", contentType)]
      body := ReqBody.multipart form }
  match net req with
  | TransportResult.fail e => (some e, [req])
  | TransportResult.resp st b =>
      if st < 200 ∨ 300 ≤ st then (some (uploadErrMsg st b), [req])
      else (none, [req])

/-- UploadFileToPresignedUrl (src/main.go lines 375-409). Returns the Go
error, the trace of file-handle events (defer file.Close() runs on every
return path after a successful open), and the requests issued. -/
def UploadFileToPresignedUrl (fs : FsEnv) (net : HttpEnv) (filePath : String)
    (presigned : PresignedPostURLs) :
    Option GoError × List FileEvent × List HttpRequest :=
  match fs.openFile filePath with
  | Except.error e => (some e, [], [])
  | Except.ok _ =>
      let rest : Option GoError × List HttpRequest :=
        match fs.statSize filePath with
        | Except.error e => (some e, [])
        | Except.ok size =>
            match createMultipartForm (some (fs.contents filePath)) size
                presigned.FileName presigned.Fields with
            | Except.error e => (some e, [])
            | Except.ok (form, contentType) =>
                sendPresignedPost net presigned form contentType
      (rest.1, [FileEvent.opened filePath, FileEvent.closed filePath], rest.2)

/-- UploadContentToPresignedUrl (src/main.go lines 415-437). -/
def UploadContentToPresignedUrl (net : HttpEnv) (content : Option (List UInt8))
    (size : Int) (presigned : PresignedPostURLs) :
    Option GoError × List HttpRequest :=
  match createMultipartForm content size presigned.FileName presigned.Fields with
  | Except.error e => (some e, [])
  | Except.ok (form, contentType) =>
      sendPresignedPost net presigned form contentType

/-! ## Call sequences over one client

To state that the client configuration is immutable and that results do not
depend on earlier calls, the API methods are packaged as an operation type
applied to a threaded client value. Each Go method has a pointer receiver and
assigns to no field of it, so each branch returns the receiver unchanged. -/

/-- One API method invocation with its arguments. -/
inductive ApiCall where
  | deleteFiles : List String → ApiCall
  | listFiles : Int → Int → ApiCall
  | renameFiles : List RenameFileUpdate → ApiCall
  | getUsageInfo : ApiCall
  | getPresignedUrl : String → Int → ApiCall
  | getAppInfo : ApiCall
  | getPresignedUploadUrl : List UploadFileInfo → String → ApiCall

/-- The value an API method invocation returns. -/
inductive CallOutcome where
  | deleteFiles : Option DeleteFilesResponse × Option GoError × List HttpRequest → CallOutcome
  | listFiles : Option ListFilesResponse × Option GoError × List HttpRequest → CallOutcome
  | renameFiles : Option RenameFilesResponse × Option GoError × List HttpRequest → CallOutcome
  | getUsageInfo : Option UsageInfoResponse × Option GoError × List HttpRequest → CallOutcome
  | getPresignedUrl : String × Option GoError × List HttpRequest → CallOutcome
  | getAppInfo : Option GetAppInfoResponse × Option GoError × List HttpRequest → CallOutcome
  | getPresignedUploadUrl : Option UploadFilesResponse × Option GoError × List HttpRequest → CallOutcome

/-- Invocation of one API method on the client, returning the client as the
method body leaves it together with the method's return value. -/
def applyCall (ut : UtApi) (c : ApiCall) : UtApi × CallOutcome :=
  match c with
  | ApiCall.deleteFiles fileKeys => (ut, CallOutcome.deleteFiles (DeleteFiles ut fileKeys))
  | ApiCall.listFiles limit offset => (ut, CallOutcome.listFiles (ListFiles ut limit offset))
  | ApiCall.renameFiles updates => (ut, CallOutcome.renameFiles (RenameFiles ut updates))
  | ApiCall.getUsageInfo => (ut, CallOutcome.getUsageInfo (GetUsageInfo ut))
  | ApiCall.getPresignedUrl fileKey expiresIn =>
      (ut, CallOutcome.getPresignedUrl (GetPresignedUrl ut fileKey expiresIn))
  | ApiCall.getAppInfo => (ut, CallOutcome.getAppInfo (GetAppInfo ut))
  | ApiCall.getPresignedUploadUrl files acl =>
      (ut, CallOutcome.getPresignedUploadUrl (GetPresignedUploadUrl ut files acl))

/-- The client value after a sequence of API method invocations. -/
def runSeq (ut : UtApi) (ops : List ApiCall) : UtApi :=
  ops.foldl (fun u c => (applyCall u c).1) ut

/-! ## Spec-side definitions

These definitions follow the wording of the specification claims, to be
compared against the behaviour of the embedded source functions. -/

/-- Spec wording of claim C1: the failure a method call surfaces, written as
a function of what the transport did — the transport error verbatim, the
status error for a non-2xx status, or whatever the decoder reports. -/
def specErrOf (env : HttpEnv) (req : HttpRequest)
    (decFail : RespBody → Option GoError) : Option GoError :=
  match env req with
  | TransportResult.fail e => some e
  | TransportResult.resp st b =>
      if st < 200 ∨ 300 ≤ st then some (statusErrMsg st b)
      else decFail b

/-- The failure, if any, a decoder reports on a body. -/
def specDecFailure (dec : RespBody → Except GoError α) (b : RespBody) : Option GoError :=
  match dec b with
  | Except.error e => some e
  | Except.ok _ => none

/-- Spec wording of claim C3: the header set every client request carries. -/
def specHeaders (ut : UtApi) (hs : List (String × String)) : Prop :=
  headerGet hs "Content-Type" = some "application/json" ∧
  headerGet hs "x-uploadthing-api-key" = some ut.config.ApiKey ∧
  headerGet hs "x-uploadthing-version" = some ut.config.Version ∧
  headerGet hs "x-uploadthing-fe-package" =
    (if ut.fePackage = "" then none else some ut.fePackage) ∧
  headerGet hs "x-uploadthing-be-adapter" =
    (if ut.beAdapter = "" then none else some ut.beAdapter)

/-! ## Concrete fixtures used by the witness theorems -/

/-- A 2xx response body carrying a DeleteFiles result. -/
def bodyDelete : RespBody :=
  { raw := "\x7b\"success\":true,\"deletedCount\":2\x7d"
    json := some (Json.obj [("success", Json.bool true), ("deletedCount", Json.num 2)]) }

/-- A 2xx response body carrying a RequestFileAccess result. -/
def bodyAccess : RespBody :=
  { raw := "\x7b\"ufsUrl\":\"https://ufs.example/x\",\"url\":\"https://old.example/x\"\x7d"
    json := some (Json.obj [("ufsUrl", Json.str "https://ufs.example/x"),
                            ("url", Json.str "https://old.example/x")]) }

/-- A client whose transport always answers 200 with `bodyDelete`. -/
def utW : UtApi :=
  { config := { Host := "https://api.uploadthing.com", ApiKey := "sk-test", Version := "7.6.0" }
    httpClient := fun _ => TransportResult.resp 200 bodyDelete
    fePackage := ""
    beAdapter := "github.com/IXackerr/utapi-go" }

/-- A client whose transport always answers 200 with `bodyAccess`. -/
def utW2 : UtApi :=
  { config := { Host := "https://api.uploadthing.com", ApiKey := "sk-test", Version := "7.6.0" }
    httpClient := fun _ => TransportResult.resp 200 bodyAccess
    fePackage := ""
    beAdapter := "github.com/IXackerr/utapi-go" }

/-- A process environment whose .env file fails to load although the secret
is present in the process environment. -/
def envLoadFail : OsEnv :=
  { dotenvLoad := Except.error "open .env: no such file or directory"
    getenv := fun _ => "sk-live" }

/-- A process environment whose .env file loads but sets no secret. -/
def envNoSecret : OsEnv :=
  { dotenvLoad := Except.ok (), getenv := fun _ => "" }

/-- A process environment whose .env file loads and provides the secret. -/
def envWithSecret : OsEnv :=
  { dotenvLoad := Except.ok ()
    getenv := fun k => if k = "UPLOADTHING_SECRET" then "sk-test" else "" }

/-- A transport that always answers 204 with an empty body. -/
def netW : HttpEnv := fun _ => TransportResult.resp 204 { raw := "", json := none }

/-- A presigned-upload descriptor with one provider form field. -/
def presW : PresignedPostURLs :=
  { Key := "k", FileName := "f.txt", FileType := "text/plain", FileUrl := ""
    ContentDisposition := "", PollingJwt := "", PollingUrl := ""
    CustomId := none, Url := "https://bucket.example/upload", Fields := [("acl", "public-read")] }

/-- A transport that always fails at the connection level. -/
def netFail : HttpEnv := fun _ => TransportResult.fail "dial tcp: connection refused"

/-- A client whose transport always fails. -/
def utWFail : UtApi :=
  { config := { Host := "https://api.uploadthing.com", ApiKey := "sk-test", Version := "7.6.0" }
    httpClient := netFail
    fePackage := ""
    beAdapter := "github.com/IXackerr/utapi-go" }

/-! ## Helper lemmas -/

/-- The error component of an API method call equals the spec error
discipline evaluated at the request the call builds. -/
theorem finishCall_post_err (ut : UtApi) (path bd : String)
    (dec : RespBody → Except GoError α) :
    (finishCall (post ut path bd) dec).2.1 =
      specErrOf ut.httpClient (mkRequest ut path bd) (specDecFailure dec) := by
  simp only [finishCall, post, specErrOf, specDecFailure]
  cases h : ut.httpClient (mkRequest ut path bd) with
  | fail e => simp
  | resp st b =>
      by_cases hst : st < 200 ∨ 300 ≤ st
      · simp [hst]
      · simp [hst]
        cases hdec : dec b <;> simp

/-- Every API method call hands exactly the request it builds to the
transport. -/
theorem finishCall_post_trace (ut : UtApi) (path bd : String)
    (dec : RespBody → Except GoError α) :
    (finishCall (post ut path bd) dec).2.2 = [mkRequest ut path bd] := by
  simp only [finishCall, post]
  cases h : ut.httpClient (mkRequest ut path bd) with
  | fail e => simp
  | resp st b =>
      by_cases hst : st < 200 ∨ 300 ≤ st
      · simp [hst]
      · simp [hst]
        cases hdec : dec b <;> simp

/-- On a 2xx response whose body decodes, an API method call returns the
decoded structure with no error. -/
theorem finishCall_post_ok (ut : UtApi) (path bd : String)
    (dec : RespBody → Except GoError α) (st : Int) (b : RespBody) (r : α)
    (henv : ut.httpClient (mkRequest ut path bd) = TransportResult.resp st b)
    (h200 : 200 ≤ st) (h300 : st < 300) (hdec : dec b = Except.ok r) :
    finishCall (post ut path bd) dec = (some r, none, [mkRequest ut path bd]) := by
  have hst : ¬(st < 200 ∨ 300 ≤ st) := by omega
  simp only [finishCall, post, henv, if_neg hst, hdec]

/-- An API method call returns a structure exactly when it returns no
error. -/
theorem finishCall_post_xor (ut : UtApi) (path bd : String)
    (dec : RespBody → Except GoError α) :
    (finishCall (post ut path bd) dec).1.isSome ↔
      (finishCall (post ut path bd) dec).2.1 = none := by
  simp only [finishCall, post]
  cases h : ut.httpClient (mkRequest ut path bd) with
  | fail e => simp
  | resp st b =>
      by_cases hst : st < 200 ∨ 300 ≤ st
      · simp [hst]
      · simp [hst]
        cases hdec : dec b <;> simp

/-- setHeaders produces exactly the header set of the specification. -/
theorem setHeaders_spec (ut : UtApi) : specHeaders ut (setHeaders ut) := by
  refine ⟨?_, ?_, ?_, ?_, ?_⟩ <;>
    by_cases hfe : ut.fePackage = "" <;> by_cases hbe : ut.beAdapter = "" <;>
      simp [specHeaders, setHeaders, headerGet, hfe, hbe]

/-- Every API method invocation leaves the client unchanged. -/
theorem applyCall_fst (ut : UtApi) (c : ApiCall) : (applyCall ut c).1 = ut := by
  cases c <;> rfl

/-- A sequence of API method invocations leaves the client unchanged. -/
theorem runSeq_id (ut : UtApi) (ops : List ApiCall) : runSeq ut ops = ut := by
  induction ops with
  | nil => rfl
  | cons c ops ih =>
      simp only [runSeq, List.foldl] at ih ⊢
      rw [applyCall_fst]
      exact ih

/-- GetPresignedUrl: its error component equals the spec error discipline,
its trace is the one request it builds, and on error its string is empty. -/
theorem getPresignedUrl_cases (ut : UtApi) (fileKey : String) (expiresIn : Int) :
    (GetPresignedUrl ut fileKey expiresIn).2.1 =
      specErrOf ut.httpClient
        (mkRequest ut "/v6/requestFileAccess"
          (Json.render (encodeRequestFileAccessRequest
            { FileKey := fileKey, ExpiresIn := expiresIn })))
        (specDecFailure decodeRequestFileAccessResponse) ∧
    (GetPresignedUrl ut fileKey expiresIn).2.2 =
      [mkRequest ut "/v6/requestFileAccess"
        (Json.render (encodeRequestFileAccessRequest
          { FileKey := fileKey, ExpiresIn := expiresIn }))] ∧
    ((GetPresignedUrl ut fileKey expiresIn).2.1 = none ∨
      (GetPresignedUrl ut fileKey expiresIn).1 = "") := by
  simp only [GetPresignedUrl, finishCall, post, specErrOf, specDecFailure]
  cases h : ut.httpClient (mkRequest ut "/v6/requestFileAccess"
      (Json.render (encodeRequestFileAccessRequest
        { FileKey := fileKey, ExpiresIn := expiresIn }))) with
  | fail e => simp
  | resp st b =>
      by_cases hst : st < 200 ∨ 300 ≤ st
      · simp [hst]
      · simp [hst]
        cases hdec : decodeRequestFileAccessResponse b <;> simp

/-- On a 2xx response whose body decodes, GetPresignedUrl returns the ufsUrl
field with no error. -/
theorem getPresignedUrl_ok (ut : UtApi) (fileKey : String) (expiresIn : Int)
    (st : Int) (b : RespBody) (r : RequestFileAccessResponse)
    (henv : ut.httpClient (mkRequest ut "/v6/requestFileAccess"
      (Json.render (encodeRequestFileAccessRequest
        { FileKey := fileKey, ExpiresIn := expiresIn }))) = TransportResult.resp st b)
    (h200 : 200 ≤ st) (h300 : st < 300)
    (hdec : decodeRequestFileAccessResponse b = Except.ok r) :
    GetPresignedUrl ut fileKey expiresIn =
      (r.UfsUrl, none,
        [mkRequest ut "/v6/requestFileAccess"
          (Json.render (encodeRequestFileAccessRequest
            { FileKey := fileKey, ExpiresIn := expiresIn }))]) := by
  have hst : ¬(st < 200 ∨ 300 ≤ st) := by omega
  simp only [GetPresignedUrl, finishCall, post, henv, if_neg hst, hdec]

/-- Claim C1: for every API method (DeleteFiles, ListFiles, RenameFiles,
GetUsageInfo, GetPresignedUrl, GetAppInfo, GetPresignedUploadUrl), the call
returns an error exactly when the underlying HTTP call fails, the HTTP
status is outside 200-299, or decoding the JSON response body fails; the
failure is surfaced to the caller as the returned error value, and otherwise
the call returns no error. -/
theorem api_error_iff_transport_status_or_decode (ut : UtApi) :
    (∀ fileKeys, (DeleteFiles ut fileKeys).2.1 =
      specErrOf ut.httpClient
        (mkRequest ut "/v6/deleteFiles"
          (Json.render (encodeDeleteFilesRequest { FileKeys := fileKeys })))
        (specDecFailure decodeDeleteFilesResponse)) ∧
    (∀ limit offset, (ListFiles ut limit offset).2.1 =
      specErrOf ut.httpClient
        (mkRequest ut "/v6/listFiles"
          (Json.render (encodeListFilesRequest { Limit := limit, Offset := offset })))
        (specDecFailure decodeListFilesResponse)) ∧
    (∀ updates, (RenameFiles ut updates).2.1 =
      specErrOf ut.httpClient
        (mkRequest ut "/v6/renameFiles"
          (Json.render (encodeRenameFilesRequest { Updates := updates })))
        (specDecFailure decodeRenameFilesResponse)) ∧
    ((GetUsageInfo ut).2.1 =
      specErrOf ut.httpClient (mkRequest ut "/v6/getUsageInfo" "\x7b\x7d")
        (specDecFailure decodeUsageInfoResponse)) ∧
    (∀ fileKey expiresIn, (GetPresignedUrl ut fileKey expiresIn).2.1 =
      specErrOf ut.httpClient
        (mkRequest ut "/v6/requestFileAccess"
          (Json.render (encodeRequestFileAccessRequest
            { FileKey := fileKey, ExpiresIn := expiresIn })))
        (specDecFailure decodeRequestFileAccessResponse)) ∧
    ((GetAppInfo ut).2.1 =
      specErrOf ut.httpClient (mkRequest ut "/v7/getAppInfo" "\x7b\x7d")
        (specDecFailure decodeGetAppInfoResponse)) ∧
    (∀ files acl, (GetPresignedUploadUrl ut files acl).2.1 =
      specErrOf ut.httpClient
        (mkRequest ut "/v6/uploadFiles"
          (Json.render (encodeUploadFilesRequest
            { Files := files, ACL := acl, Metadata := none, ContentDisposition := "" })))
        (specDecFailure decodeUploadFilesResponse)) := by
  refine ⟨fun fileKeys => ?_, fun limit offset => ?_, fun updates => ?_, ?_,
    fun fileKey expiresIn => ?_, ?_, fun files acl => ?_⟩
  · exact finishCall_post_err ut "/v6/deleteFiles" _ decodeDeleteFilesResponse
  · exact finishCall_post_err ut "/v6/listFiles" _ decodeListFilesResponse
  · exact finishCall_post_err ut "/v6/renameFiles" _ decodeRenameFilesResponse
  · exact finishCall_post_err ut "/v6/getUsageInfo" _ decodeUsageInfoResponse
  · exact (getPresignedUrl_cases ut fileKey expiresIn).1
  · exact finishCall_post_err ut "/v7/getAppInfo" _ decodeGetAppInfoResponse
  · exact finishCall_post_err ut "/v6/uploadFiles" _ decodeUploadFilesResponse

/-- Claim C2: every API method sends its request structure serialized to
JSON (the explicit shapes below) as an HTTP POST to the fixed endpoint path
appended to the configured host, and on a 2xx status the JSON response body
is deserialized into the matching result structure, which is returned. -/
theorem api_request_shape_and_response_decode (ut : UtApi) :
    (∀ path bd, (mkRequest ut path bd).method = "POST" ∧
      (mkRequest ut path bd).url = ut.config.Host ++ path ∧
      (mkRequest ut path bd).body = ReqBody.bytes bd) ∧
    (∀ fileKeys, (DeleteFiles ut fileKeys).2.2 =
      [mkRequest ut "/v6/deleteFiles"
        (Json.render (Json.obj [("fileKeys", Json.arr (fileKeys.map Json.str))]))]) ∧
    (∀ limit offset, (ListFiles ut limit offset).2.2 =
      [mkRequest ut "/v6/listFiles"
        (Json.render (Json.obj [("limit", Json.num limit), ("offset", Json.num offset)]))]) ∧
    (∀ updates, (RenameFiles ut updates).2.2 =
      [mkRequest ut "/v6/renameFiles"
        (Json.render (Json.obj [("updates", Json.arr (updates.map (fun u =>
          Json.obj [("fileKey", Json.str u.FileKey),
                    ("newName", Json.str u.NewName)])))]))]) ∧
    ((GetUsageInfo ut).2.2 = [mkRequest ut "/v6/getUsageInfo" "\x7b\x7d"]) ∧
    (∀ fileKey expiresIn, (GetPresignedUrl ut fileKey expiresIn).2.2 =
      [mkRequest ut "/v6/requestFileAccess"
        (Json.render (Json.obj ([("fileKey", Json.str fileKey)] ++
          (if expiresIn = 0 then [] else [("expiresIn", Json.num expiresIn)]))))]) ∧
    ((GetAppInfo ut).2.2 = [mkRequest ut "/v7/getAppInfo" "\x7b\x7d"]) ∧
    (∀ files acl, (GetPresignedUploadUrl ut files acl).2.2 =
      [mkRequest ut "/v6/uploadFiles"
        (Json.render (Json.obj [("files", Json.arr (files.map encodeUploadFileInfo)),
          ("acl", Json.str acl)]))]) ∧
    (∀ fileKeys st b r,
      ut.httpClient (mkRequest ut "/v6/deleteFiles"
        (Json.render (encodeDeleteFilesRequest { FileKeys := fileKeys }))) =
          TransportResult.resp st b →
      200 ≤ st → st < 300 → decodeDeleteFilesResponse b = Except.ok r →
      (DeleteFiles ut fileKeys).1 = some r) ∧
    (∀ limit offset st b r,
      ut.httpClient (mkRequest ut "/v6/listFiles"
        (Json.render (encodeListFilesRequest { Limit := limit, Offset := offset }))) =
          TransportResult.resp st b →
      200 ≤ st → st < 300 → decodeListFilesResponse b = Except.ok r →
      (ListFiles ut limit offset).1 = some r) ∧
    (∀ updates st b r,
      ut.httpClient (mkRequest ut "/v6/renameFiles"
        (Json.render (encodeRenameFilesRequest { Updates := updates }))) =
          TransportResult.resp st b →
      200 ≤ st → st < 300 → decodeRenameFilesResponse b = Except.ok r →
      (RenameFiles ut updates).1 = some r) ∧
    (∀ st b r,
      ut.httpClient (mkRequest ut "/v6/getUsageInfo" "\x7b\x7d") =
          TransportResult.resp st b →
      200 ≤ st → st < 300 → decodeUsageInfoResponse b = Except.ok r →
      (GetUsageInfo ut).1 = some r) ∧
    (∀ fileKey expiresIn st b r,
      ut.httpClient (mkRequest ut "/v6/requestFileAccess"
        (Json.render (encodeRequestFileAccessRequest
          { FileKey := fileKey, ExpiresIn := expiresIn }))) =
          TransportResult.resp st b →
      200 ≤ st → st < 300 → decodeRequestFileAccessResponse b = Except.ok r →
      (GetPresignedUrl ut fileKey expiresIn).1 = r.UfsUrl) ∧
    (∀ st b r,
      ut.httpClient (mkRequest ut "/v7/getAppInfo" "\x7b\x7d") =
          TransportResult.resp st b →
      200 ≤ st → st < 300 → decodeGetAppInfoResponse b = Except.ok r →
      (GetAppInfo ut).1 = some r) ∧
    (∀ files acl st b r,
      ut.httpClient (mkRequest ut "/v6/uploadFiles"
        (Json.render (encodeUploadFilesRequest
          { Files := files, ACL := acl, Metadata := none, ContentDisposition := "" }))) =
          TransportResult.resp st b →
      200 ≤ st → st < 300 → decodeUploadFilesResponse b = Except.ok r →
      (GetPresignedUploadUrl ut files acl).1 = some r) := by
  refine ⟨fun path bd => ⟨rfl, rfl, rfl⟩,
    fun fileKeys => finishCall_post_trace ut "/v6/deleteFiles" _ decodeDeleteFilesResponse,
    fun limit offset => finishCall_post_trace ut "/v6/listFiles" _ decodeListFilesResponse,
    fun updates => finishCall_post_trace ut "/v6/renameFiles" _ decodeRenameFilesResponse,
    finishCall_post_trace ut "/v6/getUsageInfo" _ decodeUsageInfoResponse,
    fun fileKey expiresIn => (getPresignedUrl_cases ut fileKey expiresIn).2.1,
    finishCall_post_trace ut "/v7/getAppInfo" _ decodeGetAppInfoResponse,
    fun files acl => finishCall_post_trace ut "/v6/uploadFiles" _ decodeUploadFilesResponse,
    ?_, ?_, ?_, ?_, ?_, ?_, ?_⟩
  · intro fileKeys st b r henv h200 h300 hdec
    have h := finishCall_post_ok ut "/v6/deleteFiles" _ decodeDeleteFilesResponse
      st b r henv h200 h300 hdec
    exact congrArg Prod.fst h
  · intro limit offset st b r henv h200 h300 hdec
    have h := finishCall_post_ok ut "/v6/listFiles" _ decodeListFilesResponse
      st b r henv h200 h300 hdec
    exact congrArg Prod.fst h
  · intro updates st b r henv h200 h300 hdec
    have h := finishCall_post_ok ut "/v6/renameFiles" _ decodeRenameFilesResponse
      st b r henv h200 h300 hdec
    exact congrArg Prod.fst h
  · intro st b r henv h200 h300 hdec
    have h := finishCall_post_ok ut "/v6/getUsageInfo" _ decodeUsageInfoResponse
      st b r henv h200 h300 hdec
    exact congrArg Prod.fst h
  · intro fileKey expiresIn st b r henv h200 h300 hdec
    have h := getPresignedUrl_ok ut fileKey expiresIn st b r henv h200 h300 hdec
    exact congrArg Prod.fst h
  · intro st b r henv h200 h300 hdec
    have h := finishCall_post_ok ut "/v7/getAppInfo" _ decodeGetAppInfoResponse
      st b r henv h200 h300 hdec
    exact congrArg Prod.fst h
  · intro files acl st b r henv h200 h300 hdec
    have h := finishCall_post_ok ut "/v6/uploadFiles" _ decodeUploadFilesResponse
      st b r henv h200 h300 hdec
    exact congrArg Prod.fst h

/-- Witness for C2: on a client whose transport answers 200 with a decodable
body, DeleteFiles returns the decoded structure with no error. -/
theorem api_request_shape_and_response_decode_witness :
    (DeleteFiles utW ["a"]).1 = some { Success := true, DeletedCount := 2 } := by
  obtain ⟨-, -, -, -, -, -, -, -, hdel, -⟩ :=
    api_request_shape_and_response_decode utW
  exact hdel ["a"] 200 bodyDelete { Success := true, DeletedCount := 2 }
    rfl (by decide) (by decide) rfl

/-- Claim C3: every request issued by any client method carries Content-Type
application/json, the configured API key and version, and the fe-package /
be-adapter headers exactly when the corresponding client field is
non-empty. -/
theorem client_requests_carry_fixed_headers (ut : UtApi) :
    (∀ fileKeys req, req ∈ (DeleteFiles ut fileKeys).2.2 → specHeaders ut req.headers) ∧
    (∀ limit offset req, req ∈ (ListFiles ut limit offset).2.2 → specHeaders ut req.headers) ∧
    (∀ updates req, req ∈ (RenameFiles ut updates).2.2 → specHeaders ut req.headers) ∧
    (∀ req, req ∈ (GetUsageInfo ut).2.2 → specHeaders ut req.headers) ∧
    (∀ fileKey expiresIn req, req ∈ (GetPresignedUrl ut fileKey expiresIn).2.2 →
      specHeaders ut req.headers) ∧
    (∀ req, req ∈ (GetAppInfo ut).2.2 → specHeaders ut req.headers) ∧
    (∀ files acl req, req ∈ (GetPresignedUploadUrl ut files acl).2.2 →
      specHeaders ut req.headers) := by
  refine ⟨?_, ?_, ?_, ?_, ?_, ?_, ?_⟩
  · intro fileKeys req hreq
    have ht : (DeleteFiles ut fileKeys).2.2 =
        [mkRequest ut "/v6/deleteFiles"
          (Json.render (encodeDeleteFilesRequest { FileKeys := fileKeys }))] :=
      finishCall_post_trace ut _ _ _
    rw [ht, List.mem_singleton] at hreq
    subst hreq
    exact setHeaders_spec ut
  · intro limit offset req hreq
    have ht : (ListFiles ut limit offset).2.2 =
        [mkRequest ut "/v6/listFiles"
          (Json.render (encodeListFilesRequest { Limit := limit, Offset := offset }))] :=
      finishCall_post_trace ut _ _ _
    rw [ht, List.mem_singleton] at hreq
    subst hreq
    exact setHeaders_spec ut
  · intro updates req hreq
    have ht : (RenameFiles ut updates).2.2 =
        [mkRequest ut "/v6/renameFiles"
          (Json.render (encodeRenameFilesRequest { Updates := updates }))] :=
      finishCall_post_trace ut _ _ _
    rw [ht, List.mem_singleton] at hreq
    subst hreq
    exact setHeaders_spec ut
  · intro req hreq
    have ht : (GetUsageInfo ut).2.2 = [mkRequest ut "/v6/getUsageInfo" "\x7b\x7d"] :=
      finishCall_post_trace ut _ _ _
    rw [ht, List.mem_singleton] at hreq
    subst hreq
    exact setHeaders_spec ut
  · intro fileKey expiresIn req hreq
    have ht := (getPresignedUrl_cases ut fileKey expiresIn).2.1
    rw [ht, List.mem_singleton] at hreq
    subst hreq
    exact setHeaders_spec ut
  · intro req hreq
    have ht : (GetAppInfo ut).2.2 = [mkRequest ut "/v7/getAppInfo" "\x7b\x7d"] :=
      finishCall_post_trace ut _ _ _
    rw [ht, List.mem_singleton] at hreq
    subst hreq
    exact setHeaders_spec ut
  · intro files acl req hreq
    have ht : (GetPresignedUploadUrl ut files acl).2.2 =
        [mkRequest ut "/v6/uploadFiles"
          (Json.render (encodeUploadFilesRequest
            { Files := files, ACL := acl, Metadata := none, ContentDisposition := "" }))] :=
      finishCall_post_trace ut _ _ _
    rw [ht, List.mem_singleton] at hreq
    subst hreq
    exact setHeaders_spec ut

/-- Witness for C3: the one request a concrete DeleteFiles call issues
carries the fixed header set. -/
theorem client_requests_carry_fixed_headers_witness :
    specHeaders utW (mkRequest utW "/v6/deleteFiles"
      (Json.render (encodeDeleteFilesRequest { FileKeys := ["a"] }))).headers := by
  have ht : (DeleteFiles utW ["a"]).2.2 =
      [mkRequest utW "/v6/deleteFiles"
        (Json.render (encodeDeleteFilesRequest { FileKeys := ["a"] }))] :=
    finishCall_post_trace utW _ _ _
  exact (client_requests_carry_fixed_headers utW).1 ["a"] _
    (by rw [ht]; exact List.mem_singleton.mpr rfl)

/-- sendPresignedPost hands exactly one request to the transport. -/
theorem sendPresignedPost_trace (net : HttpEnv) (presigned : PresignedPostURLs)
    (form : MultipartForm) (contentType : String) :
    (sendPresignedPost net presigned form contentType).2 =
      [{ method := "POST"
         url := presigned.Url
         headers := [("Content-Type", contentType)]
         body := ReqBody.multipart form }] := by
  simp only [sendPresignedPost]
  cases h : net { method := "POST", url := presigned.Url
                  headers := [("Content-Type", contentType)]
                  body := ReqBody.multipart form } with
  | fail e => simp
  | resp st b =>
      by_cases hst : st < 200 ∨ 300 ≤ st
      · simp [hst]
      · simp [hst]

/-- Claim C4: every invocation of an API method — the seven client methods
and the two upload functions — hands at most one request to the HTTP
transport; no retry or second request exists on any path. -/
theorem at_most_one_request_per_call (ut : UtApi) (fs : FsEnv) (net : HttpEnv) :
    (∀ fileKeys, (DeleteFiles ut fileKeys).2.2.length ≤ 1) ∧
    (∀ limit offset, (ListFiles ut limit offset).2.2.length ≤ 1) ∧
    (∀ updates, (RenameFiles ut updates).2.2.length ≤ 1) ∧
    ((GetUsageInfo ut).2.2.length ≤ 1) ∧
    (∀ fileKey expiresIn, (GetPresignedUrl ut fileKey expiresIn).2.2.length ≤ 1) ∧
    ((GetAppInfo ut).2.2.length ≤ 1) ∧
    (∀ files acl, (GetPresignedUploadUrl ut files acl).2.2.length ≤ 1) ∧
    (∀ filePath presigned,
      (UploadFileToPresignedUrl fs net filePath presigned).2.2.length ≤ 1) ∧
    (∀ content size presigned,
      (UploadContentToPresignedUrl net content size presigned).2.length ≤ 1) := by
  refine ⟨fun fileKeys => ?_, fun limit offset => ?_, fun updates => ?_, ?_,
    fun fileKey expiresIn => ?_, ?_, fun files acl => ?_,
    fun filePath presigned => ?_, fun content size presigned => ?_⟩
  · have ht : (DeleteFiles ut fileKeys).2.2 =
        [mkRequest ut "/v6/deleteFiles"
          (Json.render (encodeDeleteFilesRequest { FileKeys := fileKeys }))] :=
      finishCall_post_trace ut _ _ _
    rw [ht]
    exact le_refl 1
  · have ht : (ListFiles ut limit offset).2.2 =
        [mkRequest ut "/v6/listFiles"
          (Json.render (encodeListFilesRequest { Limit := limit, Offset := offset }))] :=
      finishCall_post_trace ut _ _ _
    rw [ht]
    exact le_refl 1
  · have ht : (RenameFiles ut updates).2.2 =
        [mkRequest ut "/v6/renameFiles"
          (Json.render (encodeRenameFilesRequest { Updates := updates }))] :=
      finishCall_post_trace ut _ _ _
    rw [ht]
    exact le_refl 1
  · have ht : (GetUsageInfo ut).2.2 = [mkRequest ut "/v6/getUsageInfo" "\x7b\x7d"] :=
      finishCall_post_trace ut _ _ _
    rw [ht]
    exact le_refl 1
  · rw [(getPresignedUrl_cases ut fileKey expiresIn).2.1]
    exact le_refl 1
  · have ht : (GetAppInfo ut).2.2 = [mkRequest ut "/v7/getAppInfo" "\x7b\x7d"] :=
      finishCall_post_trace ut _ _ _
    rw [ht]
    exact le_refl 1
  · have ht : (GetPresignedUploadUrl ut files acl).2.2 =
        [mkRequest ut "/v6/uploadFiles"
          (Json.render (encodeUploadFilesRequest
            { Files := files, ACL := acl, Metadata := none, ContentDisposition := "" }))] :=
      finishCall_post_trace ut _ _ _
    rw [ht]
    exact le_refl 1
  · cases hopen : fs.openFile filePath with
    | error e => simp [UploadFileToPresignedUrl, hopen]
    | ok u =>
        cases hstat : fs.statSize filePath with
        | error e => simp [UploadFileToPresignedUrl, hopen, hstat]
        | ok size =>
            cases hform : createMultipartForm (some (fs.contents filePath)) size
                presigned.FileName presigned.Fields with
            | error e => simp [UploadFileToPresignedUrl, hopen, hstat, hform]
            | ok fc =>
                simp [UploadFileToPresignedUrl, hopen, hstat, hform,
                  sendPresignedPost_trace net presigned fc.1 fc.2]
  · cases hform : createMultipartForm content size presigned.FileName
        presigned.Fields with
    | error e => simp [UploadContentToPresignedUrl, hform]
    | ok fc =>
        simp [UploadContentToPresignedUrl, hform,
          sendPresignedPost_trace net presigned fc.1 fc.2]

/-- Claim C5: no API method modifies any field of the client, so every call
in any sequence of calls observes exactly the configuration the client was
constructed with. -/
theorem client_configuration_immutable (ut : UtApi) :
    (∀ c, (applyCall ut c).1 = ut) ∧ (∀ ops, runSeq ut ops = ut) :=
  ⟨applyCall_fst ut, runSeq_id ut⟩

/-- Claim C6: UploadFileToPresignedUrl closes the file handle it opens on
every path before returning: its file-event trace is empty (open failed) or
exactly an open followed by a close, and opens and closes balance. -/
theorem upload_file_handle_closed (fs : FsEnv) (net : HttpEnv) (filePath : String)
    (presigned : PresignedPostURLs) :
    ((UploadFileToPresignedUrl fs net filePath presigned).2.1 = [] ∨
      (UploadFileToPresignedUrl fs net filePath presigned).2.1 =
        [FileEvent.opened filePath, FileEvent.closed filePath]) ∧
    (∀ p, ((UploadFileToPresignedUrl fs net filePath presigned).2.1.count
        (FileEvent.opened p)) =
      ((UploadFileToPresignedUrl fs net filePath presigned).2.1.count
        (FileEvent.closed p))) := by
  cases hopen : fs.openFile filePath with
  | error e =>
      refine ⟨Or.inl ?_, fun p => ?_⟩ <;> simp [UploadFileToPresignedUrl, hopen]
  | ok u =>
      refine ⟨Or.inr ?_, fun p => ?_⟩
      · simp [UploadFileToPresignedUrl, hopen]
      · by_cases hp : p = filePath <;>
          simp [UploadFileToPresignedUrl, hopen, List.count_cons, hp]

/-- Claim C7: API method results are deterministic functions of the client
configuration, the arguments and the transport, independent of any earlier
calls made on the client. -/
theorem method_results_independent_of_history (ut : UtApi)
    (ops1 ops2 : List ApiCall) (c : ApiCall) :
    (applyCall (runSeq ut ops1) c).2 = (applyCall (runSeq ut ops2) c).2 := by
  rw [runSeq_id, runSeq_id]

/-- Claim C8: for every pointer-returning API method exactly one of the
result and the error is non-nil; GetPresignedUrl returns the empty string
whenever its error is non-nil, and on success returns only the ufsUrl field
of the decoded response. -/
theorem result_pointer_exclusive_with_error (ut : UtApi) :
    (∀ fileKeys, (DeleteFiles ut fileKeys).1.isSome ↔
      (DeleteFiles ut fileKeys).2.1 = none) ∧
    (∀ limit offset, (ListFiles ut limit offset).1.isSome ↔
      (ListFiles ut limit offset).2.1 = none) ∧
    (∀ updates, (RenameFiles ut updates).1.isSome ↔
      (RenameFiles ut updates).2.1 = none) ∧
    ((GetUsageInfo ut).1.isSome ↔ (GetUsageInfo ut).2.1 = none) ∧
    ((GetAppInfo ut).1.isSome ↔ (GetAppInfo ut).2.1 = none) ∧
    (∀ files acl, (GetPresignedUploadUrl ut files acl).1.isSome ↔
      (GetPresignedUploadUrl ut files acl).2.1 = none) ∧
    (∀ fileKey expiresIn, (GetPresignedUrl ut fileKey expiresIn).2.1 ≠ none →
      (GetPresignedUrl ut fileKey expiresIn).1 = "") ∧
    (∀ fileKey expiresIn st b r,
      ut.httpClient (mkRequest ut "/v6/requestFileAccess"
        (Json.render (encodeRequestFileAccessRequest
          { FileKey := fileKey, ExpiresIn := expiresIn }))) = TransportResult.resp st b →
      200 ≤ st → st < 300 → decodeRequestFileAccessResponse b = Except.ok r →
      (GetPresignedUrl ut fileKey expiresIn).1 = r.UfsUrl ∧
        (GetPresignedUrl ut fileKey expiresIn).2.1 = none) := by
  refine ⟨fun fileKeys => finishCall_post_xor ut "/v6/deleteFiles" _ decodeDeleteFilesResponse,
    fun limit offset => finishCall_post_xor ut "/v6/listFiles" _ decodeListFilesResponse,
    fun updates => finishCall_post_xor ut "/v6/renameFiles" _ decodeRenameFilesResponse,
    finishCall_post_xor ut "/v6/getUsageInfo" _ decodeUsageInfoResponse,
    finishCall_post_xor ut "/v7/getAppInfo" _ decodeGetAppInfoResponse,
    fun files acl => finishCall_post_xor ut "/v6/uploadFiles" _ decodeUploadFilesResponse,
    ?_, ?_⟩
  · intro fileKey expiresIn hne
    rcases (getPresignedUrl_cases ut fileKey expiresIn).2.2 with h | h
    · exact absurd h hne
    · exact h
  · intro fileKey expiresIn st b r henv h200 h300 hdec
    have h := getPresignedUrl_ok ut fileKey expiresIn st b r henv h200 h300 hdec
    constructor
    · rw [h]
    · rw [h]

/-- Witness for C8: on a 200 response whose body decodes, GetPresignedUrl
returns the ufsUrl field with no error; on a failing transport its error is
non-nil and its string result is empty. -/
theorem result_pointer_exclusive_with_error_witness :
    ((GetPresignedUrl utW2 "k" 60).1 = "https://ufs.example/x" ∧
      (GetPresignedUrl utW2 "k" 60).2.1 = none) ∧
    (GetPresignedUrl utWFail "k" 60).1 = "" := by
  constructor
  · exact (result_pointer_exclusive_with_error utW2).2.2.2.2.2.2.2 "k" 60 200 bodyAccess
      { UfsUrl := "https://ufs.example/x", Url := "https://old.example/x" }
      rfl (by decide) (by decide) rfl
  · exact (result_pointer_exclusive_with_error utWFail).2.2.2.2.2.2.1 "k" 60 (by decide)

/-- Claim C9: NewUtApi returns a nil client and an error whenever loading
the .env file fails (regardless of the process environment) or the
UPLOADTHING_SECRET variable is empty after loading; on success the host is
https://api.uploadthing.com, the version is 7.6.0, and the API key is the
value of UPLOADTHING_SECRET. -/
theorem newUtApi_config_and_failures :
    (∀ env : OsEnv, ∀ net : HttpEnv, ∀ e, env.dotenvLoad = Except.error e →
      NewUtApi env net = (none, some e)) ∧
    (∀ env : OsEnv, ∀ net : HttpEnv, env.dotenvLoad = Except.ok () →
      env.getenv "UPLOADTHING_SECRET" = "" →
      NewUtApi env net = (none, some "UPLOADTHING_SECRET is not set")) ∧
    (∀ env : OsEnv, ∀ net : HttpEnv, env.dotenvLoad = Except.ok () →
      env.getenv "UPLOADTHING_SECRET" ≠ "" →
      ∃ ut, NewUtApi env net = (some ut, none) ∧
        ut.config.Host = "https://api.uploadthing.com" ∧
        ut.config.Version = "7.6.0" ∧
        ut.config.ApiKey = env.getenv "UPLOADTHING_SECRET" ∧
        ut.httpClient = net) := by
  refine ⟨?_, ?_, ?_⟩
  · intro env net e h
    simp [NewUtApi, getUploadthingConfig, handleSetEnvironmentVariables,
      setEnvironmentVariablesFromFile, h]
  · intro env net h1 h2
    simp [NewUtApi, getUploadthingConfig, handleSetEnvironmentVariables,
      setEnvironmentVariablesFromFile, validateEnvironmentVariables, h1, h2]
  · intro env net h1 h2
    refine ⟨{ config := { Host := "https://api.uploadthing.com"
                          ApiKey := env.getenv "UPLOADTHING_SECRET"
                          Version := "7.6.0" }
              httpClient := net
              fePackage := ""
              beAdapter := "github.com/IXackerr/utapi-go" },
      ?_, rfl, rfl, rfl, rfl⟩
    simp [NewUtApi, getUploadthingConfig, handleSetEnvironmentVariables,
      setEnvironmentVariablesFromFile, validateEnvironmentVariables, h1, h2]

/-- Witness for C9: a failing .env load yields a nil client and that error
even though the process environment holds a secret; a loaded .env without
the secret yields the not-set error; a loaded secret yields the configured
client. -/
theorem newUtApi_config_and_failures_witness :
    NewUtApi envLoadFail netW = (none, some "open .env: no such file or directory") ∧
    NewUtApi envNoSecret netW = (none, some "UPLOADTHING_SECRET is not set") ∧
    ∃ ut, NewUtApi envWithSecret netW = (some ut, none) ∧
      ut.config.Host = "https://api.uploadthing.com" ∧
      ut.config.Version = "7.6.0" ∧
      ut.config.ApiKey = envWithSecret.getenv "UPLOADTHING_SECRET" ∧
      ut.httpClient = netW := by
  refine ⟨?_, ?_, ?_⟩
  · exact newUtApi_config_and_failures.1 envLoadFail netW
      "open .env: no such file or directory" rfl
  · exact newUtApi_config_and_failures.2.1 envNoSecret netW rfl rfl
  · exact newUtApi_config_and_failures.2.2 envWithSecret netW rfl (by decide)

/-- Claim C10: the multipart body holds every provider form field followed
by a form-file part named file with exactly size bytes of the reader; a
reader shorter than size is an error and no request is sent; a nil reader or
non-positive size gives an empty file part; the request sent on success
carries the form as its body, addressed to the presigned URL. -/
theorem multipart_form_fields_then_exact_file (fs : FsEnv) (net : HttpEnv) :
    (∀ bs : List UInt8, ∀ size : Int, ∀ fn flds, 0 < size → size ≤ (bs.length : Int) →
      createMultipartForm (some bs) size fn flds =
        Except.ok ({ parts := flds.map (fun p => FormPart.field p.1 p.2) ++
          [FormPart.file "file" fn (bs.take size.toNat)] }, formDataContentType) ∧
      (bs.take size.toNat).length = size.toNat) ∧
    (∀ bs : List UInt8, ∀ size : Int, ∀ fn flds, 0 < size → (bs.length : Int) < size →
      createMultipartForm (some bs) size fn flds = Except.error eofErr) ∧
    (∀ size : Int, ∀ fn flds, createMultipartForm none size fn flds =
      Except.ok ({ parts := flds.map (fun p => FormPart.field p.1 p.2) ++
        [FormPart.file "file" fn []] }, formDataContentType)) ∧
    (∀ bs : List UInt8, ∀ size : Int, ∀ fn flds, size ≤ 0 →
      createMultipartForm (some bs) size fn flds =
        Except.ok ({ parts := flds.map (fun p => FormPart.field p.1 p.2) ++
          [FormPart.file "file" fn []] }, formDataContentType)) ∧
    (∀ content size presigned e,
      createMultipartForm content size presigned.FileName presigned.Fields =
        Except.error e →
      UploadContentToPresignedUrl net content size presigned = (some e, [])) ∧
    (∀ content size presigned form ct,
      createMultipartForm content size presigned.FileName presigned.Fields =
        Except.ok (form, ct) →
      ∀ req, req ∈ (UploadContentToPresignedUrl net content size presigned).2 →
        req.body = ReqBody.multipart form ∧ req.url = presigned.Url) ∧
    (∀ filePath presigned sz e,
      fs.openFile filePath = Except.ok () →
      fs.statSize filePath = Except.ok sz →
      createMultipartForm (some (fs.contents filePath)) sz
        presigned.FileName presigned.Fields = Except.error e →
      UploadFileToPresignedUrl fs net filePath presigned =
        (some e, [FileEvent.opened filePath, FileEvent.closed filePath], [])) := by
  refine ⟨?_, ?_, ?_, ?_, ?_, ?_, ?_⟩
  · intro bs size fn flds hpos hle
    constructor
    · have hnl : ¬((bs.length : Int) < size) := by omega
      simp [createMultipartForm, hpos, hnl]
    · rw [List.length_take]
      omega
  · intro bs size fn flds hpos hlt
    simp [createMultipartForm, hpos, hlt]
  · intro size fn flds
    simp [createMultipartForm]
  · intro bs size fn flds hle
    have hnp : ¬(0 < size) := by omega
    simp [createMultipartForm, hnp]
  · intro content size presigned e h
    simp [UploadContentToPresignedUrl, h]
  · intro content size presigned form ct h req hreq
    simp only [UploadContentToPresignedUrl, h] at hreq
    rw [sendPresignedPost_trace, List.mem_singleton] at hreq
    subst hreq
    exact ⟨rfl, rfl⟩
  · intro filePath presigned sz e hopen hstat hform
    simp [UploadFileToPresignedUrl, hopen, hstat, hform]

/-- Witness for C10: a two-byte reader against a declared size of five is an
EOF error and UploadContentToPresignedUrl sends nothing; a three-byte reader
against a declared size of two yields the field part followed by a two-byte
file part. -/
theorem multipart_form_fields_then_exact_file_witness :
    UploadContentToPresignedUrl netW (some [1, 2]) 5 presW = (some eofErr, []) ∧
    createMultipartForm (some [1, 2, 3]) 2 "f.txt" [("acl", "public-read")] =
      Except.ok ({ parts := [FormPart.field "acl" "public-read",
        FormPart.file "file" "f.txt" [1, 2]] }, formDataContentType) := by
  constructor
  · exact (multipart_form_fields_then_exact_file
      { openFile := fun _ => Except.ok (), statSize := fun _ => Except.ok 0
        contents := fun _ => [] } netW).2.2.2.2.1 (some [1, 2]) 5 presW eofErr
      ((multipart_form_fields_then_exact_file
        { openFile := fun _ => Except.ok (), statSize := fun _ => Except.ok 0
          contents := fun _ => [] } netW).2.1 [1, 2] 5 presW.FileName presW.Fields
        (by decide) (by decide))
  · exact ((multipart_form_fields_then_exact_file
      { openFile := fun _ => Except.ok (), statSize := fun _ => Except.ok 0
        contents := fun _ => [] } netW).1 [1, 2, 3] 2 "f.txt" [("acl", "public-read")]
      (by decide) (by decide)).1
